import Mathlib

/-!
Verification of the LightGCN deep-dive notebook
(`examples/02_model_collaborative_filtering/lightgcn_deep_dive.ipynb`).

The notebook is an orchestration script: it loads the MovieLens ratings
table, splits it, wraps it in an `ImplicitCF` graph object, prepares
hyperparameters from a YAML file, constructs and trains a `LightGCN`
model, generates top-k recommendations, computes four ranking metrics,
records them with `sb.glue`, and exports the learned embeddings to CSV.
We embed the notebook's pipeline as an explicit list of actions (one per
code cell statement of interest) and model the library calls it makes
from the specification's description of their contracts.
-/

namespace LGN

/-- A row of the MovieLens ratings table as loaded by
`movielens.load_pandas_df`: user identifier, item identifier, rating
value and timestamp. -/
structure Rating where
  userID : Nat
  itemID : Nat
  rating : ℚ
  timestamp : Nat
deriving DecidableEq, Repr

/-- A row of the recommendation table returned by
`recommend_k_items`: user identifier, item identifier and predicted
score. -/
structure RecRow where
  userID : Nat
  itemID : Nat
  prediction : ℚ
deriving DecidableEq, Repr

/-- The pipeline actions performed by the notebook's code cells, in
source order.  Each constructor records the arguments visible at the
call site. -/
inductive Action where
  /-- The call `movielens.load_pandas_df(size=MOVIELENS_DATA_SIZE)` (cell 7). -/
  | loadPandasDf (size : String)
  /-- The call `python_stratified_split(df, ratio=0.75)` (cell 8). -/
  | stratifiedSplit (portion : ℚ)
  /-- The call `ImplicitCF(train=train, test=test, seed=SEED)` (cell 10). -/
  | implicitCF (seeded : Bool)
  /-- The call `prepare_hparams(yaml_file, ...)` with its keyword overrides (cell 12). -/
  | prepareHparamsCall (overrides : List (String × ℚ))
  /-- The call `LightGCN(hparams, data, seed=SEED)` (cell 14). -/
  | lightGCNInit (seeded : Bool)
  /-- The call `model.fit()` inside the `Timer` block (cell 15). -/
  | fitCall
  /-- The call `model.recommend_k_items(test, top_k=TOP_K, remove_seen=True)` (cell 19). -/
  | recommendKItems (dataArg : String) (topK : Nat) (removeSeen : Bool)
  /-- One of the four `*_at_k(test, topk_scores, k=TOP_K)` calls (cell 21);
  `dataArg` and `scoresArg` record the variable names passed. -/
  | metricCall (name : String) (dataArg scoresArg : String) (k : Nat)
  /-- The `print(...)` of the four metric values (cell 21). -/
  | printResults
  /-- One `sb.glue(key, value)` call (cell 22). -/
  | glueCall (key : String)
  /-- The call `model.infer_embedding(user_file, item_file)` (cell 24). -/
  | inferEmbeddingCall (userFile itemFile : String)
deriving DecidableEq, Repr

/-- Constant `TOP_K = 10` (cell 4). -/
def TOP_K : Nat := 10

/-- Constant `EPOCHS = 50` (cell 4). -/
def EPOCHS : Nat := 50

/-- Constant `BATCH_SIZE = 1024` (cell 4). -/
def BATCH_SIZE : Nat := 1024

/-- Path `user_file` (cell 4). -/
def user_file : String := "../../tests/resources/deeprec/lightgcn/user_embeddings.csv"

/-- Path `item_file` (cell 4). -/
def item_file : String := "../../tests/resources/deeprec/lightgcn/item_embeddings.csv"

/-- The keyword arguments the notebook passes to `prepare_hparams`
(cell 12): `n_layers=3, batch_size=BATCH_SIZE, epochs=EPOCHS,
learning_rate=0.005, eval_epoch=5, top_k=TOP_K`. -/
def notebookOverrides : List (String × ℚ) :=
  [("n_layers", 3), ("batch_size", (BATCH_SIZE : ℚ)), ("epochs", (EPOCHS : ℚ)),
   ("learning_rate", 5 / 1000), ("eval_epoch", 5), ("top_k", (TOP_K : ℚ))]

/-- The notebook's pipeline actions, one list entry per library call or
reporting statement, in the order the code cells execute (cells 7, 8,
10, 12, 14, 15, 19, 21, 22, 24). -/
def notebookActions : List Action :=
  [ .loadPandasDf "100k",
    .stratifiedSplit (75 / 100),
    .implicitCF true,
    .prepareHparamsCall notebookOverrides,
    .lightGCNInit true,
    .fitCall,
    .recommendKItems "test" TOP_K true,
    .metricCall "map_at_k" "test" "topk_scores" TOP_K,
    .metricCall "ndcg_at_k" "test" "topk_scores" TOP_K,
    .metricCall "precision_at_k" "test" "topk_scores" TOP_K,
    .metricCall "recall_at_k" "test" "topk_scores" TOP_K,
    .printResults,
    .glueCall "map",
    .glueCall "ndcg",
    .glueCall "precision",
    .glueCall "recall",
    .inferEmbeddingCall user_file item_file ]

/-- The coarse pipeline step an action belongs to, used to compare the
notebook's cell sequence with the step sequence the specification
describes. -/
inductive Step where
  | loadRatings
  | splitTrainTest
  | buildImplicitCF
  | constructModel
  | trainModel
  | recommendTopK
  | computeMetrics
  | reportResults
  | exportEmbeddings
deriving DecidableEq, Repr

/-- Classify each notebook action into its pipeline step. -/
def stepOf : Action → Step
  | .loadPandasDf _ => .loadRatings
  | .stratifiedSplit _ => .splitTrainTest
  | .implicitCF _ => .buildImplicitCF
  | .prepareHparamsCall _ => .constructModel
  | .lightGCNInit _ => .constructModel
  | .fitCall => .trainModel
  | .recommendKItems _ _ _ => .recommendTopK
  | .metricCall _ _ _ _ => .computeMetrics
  | .printResults => .reportResults
  | .glueCall _ => .reportResults
  | .inferEmbeddingCall _ _ => .exportEmbeddings

/-- Collapse consecutive equal steps (several adjacent actions belong
to one pipeline step). -/
def collapseRuns : List Step → List Step
  | [] => []
  | [s] => [s]
  | s :: t :: rest => if s = t then collapseRuns (t :: rest) else s :: collapseRuns (t :: rest)

/-- The ranking-metric calls occurring in a list of actions: for each,
the function name, the variable names passed as ground truth and as
predictions, and the cutoff `k`. -/
def metricCallsOf (as : List Action) : List (String × String × String × Nat) :=
  as.filterMap fun a =>
    match a with
    | .metricCall n d s k => some (n, d, s, k)
    | _ => none

/-- The keys recorded with `sb.glue` in a list of actions, in order. -/
def glueKeysOf (as : List Action) : List String :=
  as.filterMap fun a =>
    match a with
    | .glueCall key => some key
    | _ => none

/-- The files an action persists.  Only `infer_embedding` writes
anything: the user-embedding CSV and the item-embedding CSV.  Dataset
download/caching happens inside `load_pandas_df` and is an explicit
non-goal of the specification, so it is not modelled as a pipeline
write. -/
def filesWritten : Action → List String
  | .inferEmbeddingCall uf itf => [uf, itf]
  | _ => []

/-- Sequential execution of the notebook's cells: the notebook wraps no
call in an exception handler, so the first action that raises aborts
the run, and the actions after it never execute.  `raises` says which
library calls raise on this run. -/
def runCells (raises : Action → Bool) : List Action → Except Action (List Action)
  | [] => .ok []
  | a :: rest =>
      if raises a then .error a
      else (runCells raises rest).map (fun l => a :: l)

/-- The actions of a run that actually execute: the prefix before the
first raising action. -/
def executedCells (raises : Action → Bool) (as : List Action) : List Action :=
  as.takeWhile (fun a => !raises a)

/-- Number of rows of user `u` in a ratings table. -/
def countUser (u : Nat) (df : List Rating) : Nat :=
  df.countP (fun r => r.userID == u)

/-- Modelled from the spec: the per-user train size used by
`python_stratified_split` (not under `src/`): the split "holds out a
percentage (in this case 25%) of items from each user", so of a
user's `n` rows, `round (portion * n)` go to the train side. -/
def trainSize (portion : ℚ) (n : Nat) : Nat :=
  (round (portion * n)).toNat

/-- Walk the table once; a row of user `u` goes to train while fewer
than `k u` of `u`'s rows have gone there, to test afterwards.  `seen`
counts each user's rows already processed. -/
def splitGo (k : Nat → Nat) (seen : Nat → Nat) : List Rating → List Rating × List Rating
  | [] => ([], [])
  | r :: rest =>
      let p := splitGo k (fun v => if v = r.userID then seen v + 1 else seen v) rest
      if seen r.userID < k r.userID then (r :: p.1, p.2) else (p.1, r :: p.2)

/-- Modelled from the spec: `python_stratified_split(df, ratio)` (the
splitter lives in `recommenders.datasets.python_splitters`, not under
`src/`).  Per the spec and the notebook's own description, it holds
out a fraction of each user's rows: roughly `ratio` of every user's
rows land in train and the remainder in test, and together they
partition the input rows. -/
def python_stratified_split (df : List Rating) (portion : ℚ) : List Rating × List Rating :=
  splitGo (fun u => trainSize portion (countUser u df)) (fun _ => 0) df

/-- Modelled from the spec: the cells of one row of the ratings table
produced by `movielens.load_pandas_df` (the loader lives in
`recommenders.datasets.movielens`, not under `src/`), keyed by column
name; numeric fields are cast to ℚ.  The columns follow the table the
notebook displays for `df.head()`. -/
def ratingsRowCells (r : Rating) : List (String × ℚ) :=
  [("userID", (r.userID : ℚ)), ("itemID", (r.itemID : ℚ)),
   ("rating", r.rating), ("timestamp", (r.timestamp : ℚ))]

/-- Modelled from the spec: the cells of one row of the recommendation
table returned by `recommend_k_items` (the model lives in
`recommenders.models.deeprec`, not under `src/`), keyed by column
name, following the table the notebook displays for
`topk_scores.head()`. -/
def recRowCells (row : RecRow) : List (String × ℚ) :=
  [("userID", (row.userID : ℚ)), ("itemID", (row.itemID : ℚ)),
   ("prediction", row.prediction)]

/-- Modelled from the spec: `prepare_hparams` (in
`recommenders.models.deeprec.deeprec_utils`, not under `src/`) reads
the YAML configuration and prepares the full parameter set;
"parameters passed as the function's parameters will overwrite yaml
settings".  A configuration is a finite key/value list; the result
maps a key to its keyword-argument value when one was passed, else to
its YAML value. -/
def prepare_hparams (yaml kwargs : List (String × ℚ)) : String → Option ℚ :=
  fun key =>
    match kwargs.lookup key with
    | some v => some v
    | none => yaml.lookup key

/-- The hparams object the notebook builds (cell 12) and passes to the
`LightGCN` constructor (cell 14): `prepare_hparams` over the YAML file
with the notebook's keyword overrides. -/
def notebookHparams (yaml : List (String × ℚ)) : String → Option ℚ :=
  prepare_hparams yaml notebookOverrides

/-- The override lists of the `prepare_hparams` calls in an action
list. -/
def hparamCallsOf (as : List Action) : List (List (String × ℚ)) :=
  as.filterMap fun a =>
    match a with
    | .prepareHparamsCall o => some o
    | _ => none

/-- Modelled from the spec: the LightGCN training loop.  `fitLoop
lossAt n` runs epochs `1..n` in order and records each epoch's
training loss; the loop never inspects the losses to decide whether to
continue. -/
def fitLoop (lossAt : Nat → ℚ) : Nat → List (Nat × ℚ)
  | 0 => []
  | n + 1 => fitLoop lossAt n ++ [(n + 1, lossAt (n + 1))]

/-- Modelled from the spec: `model.fit()` trains for exactly the
configured number of epochs ("train for fixed epochs"), whatever the
loss values observed. -/
def fit (epochs : Nat) (lossAt : Nat → ℚ) : List (Nat × ℚ) :=
  fitLoop lossAt epochs

/-- Whether user `u` has interacted with item `i` in the training
set. -/
def seen (train : List Rating) (u i : Nat) : Bool :=
  train.any (fun r => r.userID == u && r.itemID == i)

/-- The items eligible for recommendation to user `u`: with
`remove_seen=True` the items already seen by the user are removed. -/
def candidateItems (items : List Nat) (train : List Rating) (u : Nat)
    (removeSeen : Bool) : List Nat :=
  if removeSeen then items.filter (fun i => !seen train u i) else items

/-- Descending order on predicted scores for user `u`: `i` ranks
before `j` when `score u i ≥ score u j`. -/
def scoreGE (score : Nat → Nat → ℚ) (u : Nat) : Nat → Nat → Prop :=
  fun i j => score u j ≤ score u i

instance (score : Nat → Nat → ℚ) (u : Nat) : DecidableRel (scoreGE score u) :=
  fun i j => inferInstanceAs (Decidable (score u j ≤ score u i))

instance (score : Nat → Nat → ℚ) (u : Nat) : IsTotal Nat (scoreGE score u) :=
  ⟨fun a b => le_total (score u b) (score u a)⟩

instance (score : Nat → Nat → ℚ) (u : Nat) : IsTrans Nat (scoreGE score u) :=
  ⟨fun _ _ _ hab hbc => le_trans hbc hab⟩

/-- The top-`k` recommendation rows for one user: rank the eligible
items by descending predicted score, keep the first `k`, and emit one
row per item with its score. -/
def recommendForUser (score : Nat → Nat → ℚ) (train : List Rating)
    (items : List Nat) (k : Nat) (removeSeen : Bool) (u : Nat) : List RecRow :=
  ((List.insertionSort (scoreGE score u)
      (candidateItems items train u removeSeen)).take k).map
    (fun i => ⟨u, i, score u i⟩)

/-- Modelled from the spec: `model.recommend_k_items(df, top_k,
remove_seen)` (the model lives in `recommenders.models.deeprec`, not
under `src/`).  Per the spec and the notebook's description it returns,
for each user appearing in `df`, the top `k` items by predicted score
among that user's candidate items — with the user's training
interactions removed when `remove_seen=True` — together with the
scores.  `score` is the trained model's prediction function and
`items` the item catalogue. -/
def recommend_k_items (score : Nat → Nat → ℚ) (train : List Rating)
    (items : List Nat) (df : List Rating) (k : Nat) (removeSeen : Bool) :
    List RecRow :=
  ((df.map Rating.userID).dedup).flatMap
    (recommendForUser score train items k removeSeen)

/-- Example scoring function for concrete evaluations. -/
def scoreW : Nat → Nat → ℚ := fun u i => ((u * 10 + i : Nat) : ℚ)

/-- Example training set for concrete evaluations. -/
def trainW : List Rating := [⟨1, 2, 5, 0⟩]

/-- Example test set for concrete evaluations. -/
def dfW : List Rating := [⟨1, 3, 4, 1⟩]

/-- Example item catalogue for concrete evaluations. -/
def itemsW : List Nat := [1, 2, 3]

/-- Modelled from the spec: the pseudo-random stream the library
derives from the integer seed (`SEED` is passed to `ImplicitCF` for
negative sampling and to `LightGCN` for embedding initialization,
neither of which is under `src/`); a linear congruential generator
stands in for it. -/
def seedStream (s : Nat) : Nat → Nat :=
  fun n => (s * 1103515245 + n * 2531011 + 12345) % 2 ^ 31

/-- The randomness a run draws on: the stream derived from the seed
when `SEED` is not `None`, the ambient entropy otherwise. -/
def pipelineRandom (seed : Option Nat) (entropy : Nat → Nat) : Nat → Nat :=
  match seed with
  | some s => seedStream s
  | none => entropy

/-- Modelled from the spec: the prediction function after training — a
deterministic function of the randomness stream and the training data
(the xavier initialization and the sampled BPR batches are functions
of both). -/
def trainedScore (rng : Nat → Nat) (train : List Rating) : Nat → Nat → ℚ :=
  fun u i => ((rng (u * 7919 + i * 104729 + countUser u train) : Nat) : ℚ)

/-- Whether a recommended row appears in the ground-truth set. -/
def relevant (test : List Rating) (row : RecRow) : Bool :=
  test.any (fun r => r.userID == row.userID && r.itemID == row.itemID)

/-- Modelled from the spec: the ranking metrics as deterministic
functions of the test set and the recommendation table, recorded as
numerator/denominator pairs (hits over recommended count, hits over
ground-truth count). -/
def evalMetrics (test : List Rating) (topk : List RecRow) :
    (Nat × Nat) × (Nat × Nat) :=
  ((topk.countP (relevant test), topk.length),
   (topk.countP (relevant test), test.length))

/-- Modelled from the spec: the rows `infer_embedding` exports to the
two CSV files — one line per user and per item with its learned
representation. -/
def embeddingRows (score : Nat → Nat → ℚ) (users items : List Nat) :
    List (Nat × ℚ) × List (Nat × ℚ) :=
  (users.map (fun u => (u, score u 0)), items.map (fun i => (i, score 0 i)))

/-- One full run of the pipeline after the split, as a function of the
seed, the ambient entropy, the data and the item catalogue: train,
recommend top-k, evaluate, export embeddings. -/
def runPipeline (seed : Option Nat) (entropy : Nat → Nat)
    (train test : List Rating) (items : List Nat) :
    List RecRow × ((Nat × Nat) × (Nat × Nat)) × (List (Nat × ℚ) × List (Nat × ℚ)) :=
  let rng := pipelineRandom seed entropy
  let score := trainedScore rng train
  let topk := recommend_k_items score train items test TOP_K true
  (topk, evalMetrics test topk,
    embeddingRows score ((train.map Rating.userID).dedup) items)

/-- Claim C1: the notebook executes exactly the claimed step sequence,
in order: load, split, build ImplicitCF, construct model with prepared
hyperparameters, fit, recommend top-k, compute metrics, print/report,
export embeddings — and nothing else. -/
theorem notebook_pipeline_order :
    collapseRuns (notebookActions.map stepOf) =
      [Step.loadRatings, Step.splitTrainTest, Step.buildImplicitCF,
       Step.constructModel, Step.trainModel, Step.recommendTopK,
       Step.computeMetrics, Step.reportResults, Step.exportEmbeddings] := by
  decide

/-- Claim C4: after recommendation the notebook computes exactly four
ranking metrics — `map_at_k`, `ndcg_at_k`, `precision_at_k`,
`recall_at_k` — each on the same `test` set and the same `topk_scores`
table with `k = TOP_K = 10`, and records exactly the four keys
`map`, `ndcg`, `precision`, `recall` via `sb.glue`, and no others. -/
theorem notebook_metrics_and_glue :
    metricCallsOf notebookActions =
      [("map_at_k", "test", "topk_scores", 10),
       ("ndcg_at_k", "test", "topk_scores", 10),
       ("precision_at_k", "test", "topk_scores", 10),
       ("recall_at_k", "test", "topk_scores", 10)] ∧
    glueKeysOf notebookActions = ["map", "ndcg", "precision", "recall"] := by
  constructor <;> rfl

/-- Claim C7: the only files the notebook persists are the two CSV
files written by `infer_embedding` — the user embeddings at
`user_file` and the item embeddings at `item_file`; every other
pipeline action writes no output file. -/
theorem notebook_files_written :
    notebookActions.flatMap filesWritten = [user_file, item_file] ∧
    notebookActions.filter (fun a => !(filesWritten a).isEmpty) =
      [Action.inferEmbeddingCall user_file item_file] := by
  constructor <;> rfl

theorem runCells_ok (raises : Action → Bool) :
    ∀ as : List Action, (∀ a ∈ as, raises a = false) →
      runCells raises as = Except.ok as := by
  intro as
  induction as with
  | nil => intro _; rfl
  | cons a rest ih =>
      intro h
      have ha : raises a = false := h a (List.mem_cons_self a rest)
      have hrest : ∀ b ∈ rest, raises b = false := fun b hb => h b (List.mem_cons_of_mem a hb)
      simp [runCells, ha, ih hrest, Except.map]

theorem runCells_error (raises : Action → Bool) :
    ∀ pre : List Action, ∀ a : Action, ∀ post : List Action,
      (∀ b ∈ pre, raises b = false) → raises a = true →
      runCells raises (pre ++ a :: post) = Except.error a ∧
      executedCells raises (pre ++ a :: post) = pre := by
  intro pre
  induction pre with
  | nil =>
      intro a post _ ha
      simp [runCells, executedCells, ha]
  | cons b rest ih =>
      intro a post hpre ha
      have hb : raises b = false := hpre b (List.mem_cons_self b rest)
      have hrest : ∀ c ∈ rest, raises c = false := fun c hc => hpre c (List.mem_cons_of_mem b hc)
      have h := ih a post hrest ha
      constructor
      · simp [runCells, hb, h.1, Except.map]
      · simp [executedCells, hb] at h ⊢
        exact h.2

/-- Claim C8: the notebook has no exception handling of its own.  If no
library call raises, every cell executes; if some call raises, the run
ends with that exception uncaught and exactly the actions before it
have executed — in particular no later pipeline output is produced. -/
theorem notebook_exception_propagation (raises : Action → Bool) :
    ((∀ a ∈ notebookActions, raises a = false) →
      runCells raises notebookActions = Except.ok notebookActions) ∧
    (∀ pre a post, notebookActions = pre ++ a :: post →
      (∀ b ∈ pre, raises b = false) → raises a = true →
      runCells raises notebookActions = Except.error a ∧
      executedCells raises notebookActions = pre) := by
  constructor
  · exact runCells_ok raises notebookActions
  · intro pre a post hsplit hpre ha
    rw [hsplit]
    exact runCells_error raises pre a post hpre ha

/-- Witness for C8: on a run where `model.fit()` raises, the pipeline
stops at `fit`, only the five preceding actions execute, and neither
recommendation, metrics, glue, nor embedding export occurs. -/
theorem notebook_exception_propagation_witness :
    runCells (fun a => decide (a = Action.fitCall)) notebookActions =
      Except.error Action.fitCall ∧
    executedCells (fun a => decide (a = Action.fitCall)) notebookActions =
      [Action.loadPandasDf "100k", Action.stratifiedSplit (75 / 100),
       Action.implicitCF true, Action.prepareHparamsCall notebookOverrides,
       Action.lightGCNInit true] :=
  (notebook_exception_propagation (fun a => decide (a = Action.fitCall))).2
    [Action.loadPandasDf "100k", Action.stratifiedSplit (75 / 100),
     Action.implicitCF true, Action.prepareHparamsCall notebookOverrides,
     Action.lightGCNInit true]
    Action.fitCall
    [Action.recommendKItems "test" TOP_K true,
     Action.metricCall "map_at_k" "test" "topk_scores" TOP_K,
     Action.metricCall "ndcg_at_k" "test" "topk_scores" TOP_K,
     Action.metricCall "precision_at_k" "test" "topk_scores" TOP_K,
     Action.metricCall "recall_at_k" "test" "topk_scores" TOP_K,
     Action.printResults,
     Action.glueCall "map", Action.glueCall "ndcg",
     Action.glueCall "precision", Action.glueCall "recall",
     Action.inferEmbeddingCall user_file item_file]
    rfl (by decide) (by decide)

theorem splitGo_perm (k : Nat → Nat) :
    ∀ (df : List Rating) (seen : Nat → Nat),
      ((splitGo k seen df).1 ++ (splitGo k seen df).2).Perm df := by
  intro df
  induction df with
  | nil => intro seen; simp [splitGo]
  | cons r rest ih =>
      intro seen
      by_cases h : seen r.userID < k r.userID
      · simp only [splitGo, if_pos h]
        simpa using (ih _).cons r
      · simp only [splitGo, if_neg h]
        exact List.perm_middle.trans ((ih _).cons r)

theorem splitGo_countP (k : Nat → Nat) (u : Nat) :
    ∀ (df : List Rating) (seen : Nat → Nat),
      ((splitGo k seen df).1).countP (fun r => r.userID == u) =
        min (k u) (seen u + df.countP (fun r => r.userID == u)) - seen u := by
  intro df
  induction df with
  | nil =>
      intro seen
      simp only [splitGo, List.countP_nil, Nat.add_zero, min_def]
      split_ifs <;> omega
  | cons r rest ih =>
      intro seen
      simp only [splitGo]
      by_cases hu : r.userID = u
      · subst hu
        by_cases h : seen r.userID < k r.userID
        · rw [if_pos h]
          simp [List.countP_cons,
            ih (fun v => if v = r.userID then seen v + 1 else seen v), min_def]
          split_ifs <;> omega
        · rw [if_neg h]
          simp [List.countP_cons,
            ih (fun v => if v = r.userID then seen v + 1 else seen v), min_def]
          split_ifs <;> omega
      · have hbu : (r.userID == u) = false := by simp [hu]
        have hnu : ¬(u = r.userID) := fun hh => hu hh.symm
        by_cases h : seen r.userID < k r.userID
        · rw [if_pos h]
          simp [List.countP_cons, hbu,
            ih (fun v => if v = r.userID then seen v + 1 else seen v), hnu]
        · rw [if_neg h]
          simp [List.countP_cons, hbu,
            ih (fun v => if v = r.userID then seen v + 1 else seen v), hnu]

theorem trainSize_three_quarters_le (n : Nat) : trainSize (3 / 4) n ≤ n := by
  unfold trainSize
  rw [Int.toNat_le, round_eq]
  have hle : (3 / 4 : ℚ) * n + 1 / 2 ≤ 1 / 2 + (n : ℚ) := by
    have hn : (0 : ℚ) ≤ (n : ℚ) := Nat.cast_nonneg n
    nlinarith
  have h2 : ⌊(1 / 2 : ℚ) + (n : ℚ)⌋ = n := by
    rw [Int.floor_add_nat]
    norm_num
  calc ⌊(3 / 4 : ℚ) * n + 1 / 2⌋ ≤ ⌊(1 / 2 : ℚ) + (n : ℚ)⌋ := Int.floor_le_floor hle
    _ = n := h2

/-- Claim C2: for every ratings table, `python_stratified_split df 0.75`
returns a pair that partitions the rows of `df`: train ++ test is a
permutation of `df`, train and test are disjoint when `df` has no
duplicate rows, and every user has exactly `round (0.75 * n)` of their
`n` rows in train and the remainder in test. -/
theorem stratified_split_partition (df : List Rating) :
    ((python_stratified_split df (3 / 4)).1 ++
        (python_stratified_split df (3 / 4)).2).Perm df ∧
    (df.Nodup →
      (python_stratified_split df (3 / 4)).1.Disjoint
        (python_stratified_split df (3 / 4)).2) ∧
    (∀ u, countUser u (python_stratified_split df (3 / 4)).1 =
        trainSize (3 / 4) (countUser u df) ∧
      countUser u (python_stratified_split df (3 / 4)).2 =
        countUser u df - trainSize (3 / 4) (countUser u df)) := by
  have hperm := splitGo_perm (fun u => trainSize (3 / 4) (countUser u df)) df (fun _ => 0)
  refine ⟨hperm, ?_, ?_⟩
  · intro hnodup
    have happ : ((python_stratified_split df (3 / 4)).1 ++
        (python_stratified_split df (3 / 4)).2).Nodup :=
      hperm.nodup_iff.mpr hnodup
    exact (List.nodup_append.mp happ).2.2
  · intro u
    have htr : countUser u (python_stratified_split df (3 / 4)).1 =
        trainSize (3 / 4) (countUser u df) := by
      have h := splitGo_countP (fun u => trainSize (3 / 4) (countUser u df)) u df (fun _ => 0)
      have hle := trainSize_three_quarters_le (countUser u df)
      unfold python_stratified_split countUser at h hle ⊢
      simp only [min_def] at h
      split_ifs at h <;> omega
    refine ⟨htr, ?_⟩
    have hcount := hperm.countP_eq (fun r => r.userID == u)
    rw [List.countP_append] at hcount
    simp only [python_stratified_split, countUser] at htr hcount ⊢
    omega

/-- Witness for C2 at a concrete four-row table: the two sides of the
split are disjoint, as the table has no duplicate rows. -/
theorem stratified_split_partition_witness :
    (python_stratified_split
        [⟨1, 1, 5, 0⟩, ⟨1, 2, 4, 1⟩, ⟨1, 3, 3, 2⟩, ⟨2, 1, 2, 3⟩] (3 / 4)).1.Disjoint
      (python_stratified_split
        [⟨1, 1, 5, 0⟩, ⟨1, 2, 4, 1⟩, ⟨1, 3, 3, 2⟩, ⟨2, 1, 2, 3⟩] (3 / 4)).2 :=
  (stratified_split_partition
      [⟨1, 1, 5, 0⟩, ⟨1, 2, 4, 1⟩, ⟨1, 3, 3, 2⟩, ⟨2, 1, 2, 3⟩]).2.1 (by decide)

/-- Claim C3: the ratings table has exactly the four columns `userID`,
`itemID`, `rating`, `timestamp`, and the recommendation table has
exactly the three columns `userID`, `itemID`, `prediction`. -/
theorem table_schemas (r : Rating) (row : RecRow) :
    (ratingsRowCells r).map Prod.fst = ["userID", "itemID", "rating", "timestamp"] ∧
    ((ratingsRowCells r).map Prod.fst).length = 4 ∧
    (recRowCells row).map Prod.fst = ["userID", "itemID", "prediction"] ∧
    ((recRowCells row).map Prod.fst).length = 3 :=
  ⟨rfl, rfl, rfl, rfl⟩

/-- Claim C5: the model's hyperparameters come from the YAML file via
`prepare_hparams`, with the six keyword arguments of the call site
overriding the YAML values for the same keys and every other key
falling through to YAML; the resulting object is exactly what the
`LightGCN` constructor receives (the notebook performs exactly one
`prepare_hparams` call, with exactly these overrides). -/
theorem prepare_hparams_overrides (yaml : List (String × ℚ)) :
    (∀ key v, notebookOverrides.lookup key = some v →
      notebookHparams yaml key = some v) ∧
    (∀ key, notebookOverrides.lookup key = none →
      notebookHparams yaml key = yaml.lookup key) ∧
    notebookHparams yaml "n_layers" = some 3 ∧
    notebookHparams yaml "batch_size" = some 1024 ∧
    notebookHparams yaml "epochs" = some 50 ∧
    notebookHparams yaml "learning_rate" = some (5 / 1000) ∧
    notebookHparams yaml "eval_epoch" = some 5 ∧
    notebookHparams yaml "top_k" = some 10 ∧
    hparamCallsOf notebookActions = [notebookOverrides] := by
  refine ⟨?_, ?_, ?_, ?_, ?_, ?_, ?_, ?_, rfl⟩
  · intro key v h
    unfold notebookHparams prepare_hparams
    rw [h]
  · intro key h
    unfold notebookHparams prepare_hparams
    rw [h]
  · rfl
  · show some ((BATCH_SIZE : ℚ)) = some 1024
    norm_num [BATCH_SIZE]
  · show some ((EPOCHS : ℚ)) = some 50
    norm_num [EPOCHS]
  · rfl
  · rfl
  · show some ((TOP_K : ℚ)) = some 10
    norm_num [TOP_K]

/-- Witness for C5 on a concrete YAML configuration: the call-site
value `epochs=50` overrides the YAML value 30, while the untouched key
`decay` falls through to its YAML value. -/
theorem prepare_hparams_overrides_witness :
    notebookHparams [("epochs", 30), ("decay", 42)] "epochs" = some 50 ∧
    notebookHparams [("epochs", 30), ("decay", 42)] "decay" = some 42 :=
  ⟨by
    rw [(prepare_hparams_overrides [("epochs", 30), ("decay", 42)]).1
      "epochs" ((EPOCHS : ℚ)) rfl]
    norm_num [EPOCHS],
   by
    rw [(prepare_hparams_overrides [("epochs", 30), ("decay", 42)]).2.1
      "decay" rfl]
    rfl⟩

theorem fitLoop_map_fst (lossAt : Nat → ℚ) :
    ∀ n, (fitLoop lossAt n).map Prod.fst = (List.range n).map (· + 1) := by
  intro n
  induction n with
  | zero => rfl
  | succ n ih => simp [fitLoop, List.range_succ, ih]

/-- Claim C6: training runs for exactly the configured number of
epochs (`EPOCHS = 50`, passed through `prepare_hparams` as the
`epochs` hyperparameter): the epoch schedule of `fit` has length
`EPOCHS` and does not depend on the loss values observed during
training — there is no early stopping. -/
theorem fit_fixed_epochs (lossAt lossAt2 : Nat → ℚ) (yaml : List (String × ℚ)) :
    (fit EPOCHS lossAt).length = EPOCHS ∧
    EPOCHS = 50 ∧
    (fit EPOCHS lossAt).map Prod.fst = (List.range EPOCHS).map (· + 1) ∧
    (fit EPOCHS lossAt).map Prod.fst = (fit EPOCHS lossAt2).map Prod.fst ∧
    notebookHparams yaml "epochs" = some (EPOCHS : ℚ) := by
  have h1 := fitLoop_map_fst lossAt EPOCHS
  have h2 := fitLoop_map_fst lossAt2 EPOCHS
  refine ⟨?_, rfl, h1, h1.trans h2.symm, rfl⟩
  have := congrArg List.length h1
  simpa using this

theorem recommendForUser_userID (score : Nat → Nat → ℚ) (train : List Rating)
    (items : List Nat) (k : Nat) (removeSeen : Bool) :
    ∀ v, ∀ row ∈ recommendForUser score train items k removeSeen v, row.userID = v := by
  intro v row hrow
  simp only [recommendForUser, List.mem_map] at hrow
  obtain ⟨i, _, rfl⟩ := hrow
  rfl

theorem flatMap_filter_block (f : Nat → List RecRow)
    (hf : ∀ v, ∀ row ∈ f v, row.userID = v) :
    ∀ (users : List Nat), users.Nodup → ∀ u ∈ users,
      (users.flatMap f).filter (fun row => row.userID == u) = f u := by
  intro users
  induction users with
  | nil => intro _ u hu; exact absurd hu (List.not_mem_nil u)
  | cons v rest ih =>
      intro hnd u hu
      have hvnotin : v ∉ rest := (List.nodup_cons.mp hnd).1
      rw [List.flatMap_cons, List.filter_append]
      rcases List.mem_cons.mp hu with h | h
      · subst h
        have h1 : (f u).filter (fun row => row.userID == u) = f u :=
          List.filter_eq_self.mpr (fun row hrow => by simp [hf u row hrow])
        have h2 : (rest.flatMap f).filter (fun row => row.userID == u) = [] := by
          rw [List.filter_eq_nil_iff]
          intro row hrow
          obtain ⟨w, hw, hroww⟩ := List.mem_flatMap.mp hrow
          have hwid := hf w row hroww
          simp only [hwid, beq_iff_eq]
          intro hwe
          exact hvnotin (hwe ▸ hw)
        rw [h1, h2, List.append_nil]
      · have hne : v ≠ u := fun he => hvnotin (he ▸ h)
        have h1 : (f v).filter (fun row => row.userID == u) = [] := by
          rw [List.filter_eq_nil_iff]
          intro row hrow
          simp [hf v row hrow, hne]
        rw [h1, List.nil_append]
        exact ih (List.nodup_cons.mp hnd).2 u h

theorem recommend_filter_eq (score : Nat → Nat → ℚ) (train : List Rating)
    (items : List Nat) (k : Nat) (removeSeen : Bool) (df : List Rating) (u : Nat)
    (hu : u ∈ (df.map Rating.userID).dedup) :
    (recommend_k_items score train items df k removeSeen).filter
        (fun row => row.userID == u) =
      recommendForUser score train items k removeSeen u :=
  flatMap_filter_block _ (recommendForUser_userID score train items k removeSeen)
    _ (List.nodup_dedup _) u hu

theorem recommendForUser_length_le (score : Nat → Nat → ℚ) (train : List Rating)
    (items : List Nat) (k : Nat) (removeSeen : Bool) (u : Nat) :
    (recommendForUser score train items k removeSeen u).length ≤ k := by
  unfold recommendForUser
  rw [List.length_map, List.length_take]
  exact inf_le_left

theorem recommendForUser_unseen (score : Nat → Nat → ℚ) (train : List Rating)
    (items : List Nat) (k : Nat) (u : Nat) :
    ∀ row ∈ recommendForUser score train items k true u,
      seen train u row.itemID = false := by
  intro row hrow
  simp only [recommendForUser, List.mem_map] at hrow
  obtain ⟨i, hi, rfl⟩ := hrow
  have hi2 : i ∈ candidateItems items train u true :=
    ((List.perm_insertionSort (scoreGE score u) _).mem_iff).mp
      (List.take_subset _ _ hi)
  simp only [candidateItems, if_pos] at hi2
  have := (List.mem_filter.mp hi2).2
  simpa using this

theorem recommendForUser_sorted (score : Nat → Nat → ℚ) (train : List Rating)
    (items : List Nat) (k : Nat) (removeSeen : Bool) (u : Nat) :
    ((recommendForUser score train items k removeSeen u).map RecRow.prediction).Sorted
      (· ≥ ·) := by
  unfold recommendForUser
  rw [List.map_map]
  have hsort : List.Pairwise (scoreGE score u)
      (List.insertionSort (scoreGE score u)
        (candidateItems items train u removeSeen)) :=
    List.sorted_insertionSort (scoreGE score u) _
  have htake := List.Pairwise.sublist (List.take_sublist k _) hsort
  rw [List.Sorted, List.pairwise_map]
  exact htake.imp (fun h => h)

theorem recommendForUser_top (score : Nat → Nat → ℚ) (train : List Rating)
    (items : List Nat) (k : Nat) (removeSeen : Bool) (u : Nat) :
    ∀ row ∈ recommendForUser score train items k removeSeen u,
      ∀ i ∈ candidateItems items train u removeSeen,
        i ∉ (recommendForUser score train items k removeSeen u).map RecRow.itemID →
        score u i ≤ score u row.itemID := by
  intro row hrow i hi hnot
  have hmap : (recommendForUser score train items k removeSeen u).map RecRow.itemID
      = (List.insertionSort (scoreGE score u)
          (candidateItems items train u removeSeen)).take k := by
    unfold recommendForUser
    rw [List.map_map]
    have hcomp : (RecRow.itemID ∘ fun i => (⟨u, i, score u i⟩ : RecRow)) = fun i => i := rfl
    rw [hcomp]
    simp
  simp only [recommendForUser, List.mem_map] at hrow
  obtain ⟨x, hx, rfl⟩ := hrow
  rw [hmap] at hnot
  have hisort : i ∈ List.insertionSort (scoreGE score u)
      (candidateItems items train u removeSeen) :=
    (List.perm_insertionSort (scoreGE score u) _).mem_iff.mpr hi
  rw [← List.take_append_drop k
    (List.insertionSort (scoreGE score u)
      (candidateItems items train u removeSeen))] at hisort
  have hidrop : i ∈ (List.insertionSort (scoreGE score u)
      (candidateItems items train u removeSeen)).drop k := by
    rcases List.mem_append.mp hisort with h | h
    · exact absurd h hnot
    · exact h
  have hpair : List.Pairwise (scoreGE score u)
      ((List.insertionSort (scoreGE score u)
          (candidateItems items train u removeSeen)).take k ++
        (List.insertionSort (scoreGE score u)
          (candidateItems items train u removeSeen)).drop k) := by
    rw [List.take_append_drop]
    exact List.sorted_insertionSort (scoreGE score u) _
  exact (List.pairwise_append.mp hpair).2.2 x hx i hidrop

/-- Claim C9: for every user `u` present in the dataframe passed to
`recommend_k_items(test, top_k=10, remove_seen=True)`, the returned
table has at most 10 rows for `u`, none of the recommended pairs is
among `u`'s training interactions, the rows come in descending score
order, and every recommended item scores at least as high as every
eligible unrecommended item. -/
theorem recommend_k_items_topk (score : Nat → Nat → ℚ) (train : List Rating)
    (items : List Nat) (df : List Rating) (u : Nat)
    (hu : u ∈ (df.map Rating.userID).dedup) :
    ((recommend_k_items score train items df TOP_K true).filter
        (fun row => row.userID == u)).length ≤ TOP_K ∧
    (∀ row ∈ (recommend_k_items score train items df TOP_K true).filter
        (fun row => row.userID == u), seen train u row.itemID = false) ∧
    (((recommend_k_items score train items df TOP_K true).filter
        (fun row => row.userID == u)).map RecRow.prediction).Sorted (· ≥ ·) ∧
    (∀ row ∈ (recommend_k_items score train items df TOP_K true).filter
        (fun row => row.userID == u),
      ∀ i ∈ candidateItems items train u true,
        i ∉ ((recommend_k_items score train items df TOP_K true).filter
          (fun row => row.userID == u)).map RecRow.itemID →
        score u i ≤ score u row.itemID) := by
  rw [recommend_filter_eq score train items TOP_K true df u hu]
  exact ⟨recommendForUser_length_le score train items TOP_K true u,
    recommendForUser_unseen score train items TOP_K u,
    recommendForUser_sorted score train items TOP_K true u,
    recommendForUser_top score train items TOP_K true u⟩

/-- Witness for C9 at a concrete instance: user 1 of the example test
set receives at most `TOP_K` recommendation rows. -/
theorem recommend_k_items_topk_witness :
    ((recommend_k_items scoreW trainW itemsW dfW TOP_K true).filter
        (fun row => row.userID == 1)).length ≤ TOP_K :=
  (recommend_k_items_topk scoreW trainW itemsW dfW 1 (by decide)).1

/-- Claim C10: with a fixed seed the pipeline is deterministic — two
runs over the same train and test data and the same hyperparameters
produce identical recommendation tables, metric values and embedding
rows, whatever the ambient entropy; and the entropy genuinely matters,
since with `SEED = None` two runs can differ. -/
theorem pipeline_deterministic_with_seed (s : Nat) (e1 e2 : Nat → Nat)
    (train test : List Rating) (items : List Nat) :
    runPipeline (some s) e1 train test items =
      runPipeline (some s) e2 train test items ∧
    ∃ e3 e4 : Nat → Nat, ∃ train2 test2 : List Rating, ∃ items2 : List Nat,
      runPipeline none e3 train2 test2 items2 ≠
        runPipeline none e4 train2 test2 items2 := by
  refine ⟨rfl, fun _ => 0, fun _ => 1, [], dfW, itemsW, ?_⟩
  decide

end LGN
